import Mathlib

/-!
# Verification of the web-image-converter core

Shallow embedding of the conversion core of the `web-image-converter`
repository: the pure helpers in `src/app/utils.ts`, the geometry functions
`computeOutputSize` / `computeDrawRects` and the per-item pipeline
`convertImage` from `src/app/conversion.ts`, and the guard of `convertOne`
and the concurrency computation of `convertAll` from the main module.

JavaScript numbers are modelled as `ℚ` where fractional values are
reachable (scale percent, aspect-ratio arithmetic) and as `ℤ`/`ℕ` for
pixel dimensions, which are integral on every reachable path.
`Math.round` is `round : ℚ → ℤ` (both are `⌊x + 1/2⌋`), `Math.floor`
is `Int.floor`.  Stateful collaborator calls (decode, resize, draw,
encode) are modelled by an environment record of their outcomes, and the
pipeline returns the updated item together with the list of observable
effects (work started, bitmap `close()` calls) of the run.
-/

namespace WebImageConverter

/-! ## utils.ts -/

/-- `clamp` from `src/app/utils.ts`:
`Math.min(max, Math.max(min, value))`. -/
def clamp (value lo hi : ℚ) : ℚ :=
  min hi (max lo value)

/-- Membership in the character class of the sanitizing regex
`/[\\/:*?"<>|]+/g` in `safeFilename` (`src/app/utils.ts`). -/
def invalidChar (c : Char) : Bool :=
  c = '\\' ∨ c = '/' ∨ c = ':' ∨ c = '*' ∨ c = '?' ∨ c = '"' ∨ c = '<' ∨ c = '>' ∨ c = '|'

/-- Global replacement of the regex `/[\\/:*?"<>|]+/g` by `'_'`: each
maximal run of characters of the class becomes a single underscore.  The
boolean argument records whether the previous character was part of a run
(in which case further run characters emit nothing). -/
def sanitizeAux : Bool → List Char → List Char
  | _, [] => []
  | inRun, c :: rest =>
    if invalidChar c then
      if inRun then sanitizeAux true rest
      else '_' :: sanitizeAux true rest
    else c :: sanitizeAux false rest

/-- `safeFilename` from `src/app/utils.ts`:
`name.replace(/[\\/:*?"<>|]+/g, '_')`. -/
def safeFilename (name : String) : String :=
  ⟨sanitizeAux false name.data⟩

/-- `extFromMime` from `src/app/utils.ts`. -/
def extFromMime (mime : String) : String :=
  if mime = "image/jpeg" then "jpg"
  else if mime = "image/png" then "png"
  else if mime = "image/webp" then "webp"
  else if mime = "image/avif" then "avif"
  else "img"

/-- `name.replace(/\.[^.]+$/, '')` in `convertImage`
(`src/app/conversion.ts`): drop a final dot followed by at least one
non-dot character; otherwise the name is unchanged. -/
def stripExt (s : String) : String :=
  let rev := s.data.reverse
  let tail := rev.takeWhile (fun c => c ≠ '.')
  match rev.dropWhile (fun c => c ≠ '.') with
  | '.' :: before => if tail = [] then s else ⟨before.reverse⟩
  | _ => s

/-! ## Data model (types.ts) -/

/-- `ConversionOptions['sizeMode']`. -/
inductive SizeMode where
  | none
  | pixels
  | scale
deriving DecidableEq, Repr

/-- `ConversionOptions['fit']`. -/
inductive FitMode where
  | keep
  | contain
  | cover
  | stretch
deriving DecidableEq, Repr

/-- `ConversionOptions['smoothingQuality']`. -/
inductive SmoothingQuality where
  | low
  | medium
  | high
deriving DecidableEq, Repr

/-- `ConversionOptions['bmpResizeQuality']`: `'off' | ResizeQuality`. -/
inductive BmpResizeQuality where
  | off
  | pixelated
  | low
  | medium
  | high
deriving DecidableEq, Repr

/-- `ConversionOptions` from `src/app/types.ts`.  `w` and `h` are the
requested pixel dimensions (`0` = not requested, matching JavaScript
truthiness on the values `readOptions` produces); `scalePct` is an
arbitrary rational, as the tests call `convertImage` with fractional and
out-of-range percentages directly. -/
structure ConversionOptions where
  type : String
  quality : ℚ
  sizeMode : SizeMode
  w : ℤ
  h : ℤ
  scalePct : ℚ
  fit : FitMode
  bg : String
  smoothing : Bool
  smoothingQuality : SmoothingQuality
  bmpResizeQuality : BmpResizeQuality
deriving DecidableEq, Repr

/-- `OutputDimensions` from `src/app/types.ts`. -/
structure OutputDimensions where
  width : ℤ
  height : ℤ
deriving DecidableEq, Repr

/-- `DrawRect` from `src/app/types.ts`. -/
structure DrawRect where
  sx : ℤ
  sy : ℤ
  sw : ℤ
  sh : ℤ
  dx : ℤ
  dy : ℤ
  dw : ℤ
  dh : ℤ
deriving DecidableEq, Repr

/-! ## Geometry (conversion.ts) -/

/-- `computeOutputSize` from `src/app/conversion.ts`. -/
def computeOutputSize (sourceWidth sourceHeight : ℤ)
    (options : ConversionOptions) : OutputDimensions :=
  match options.sizeMode with
  | .none => ⟨sourceWidth, sourceHeight⟩
  | .scale =>
    let scale := clamp options.scalePct 1 1000 / 100
    ⟨max 1 (round ((sourceWidth : ℚ) * scale)),
     max 1 (round ((sourceHeight : ℚ) * scale))⟩
  | .pixels =>
    let aspect : ℚ := (sourceWidth : ℚ) / (sourceHeight : ℚ)
    if options.w ≠ 0 ∧ options.h ≠ 0 then
      ⟨options.w, options.h⟩
    else if options.w ≠ 0 then
      ⟨options.w, round ((options.w : ℚ) / aspect)⟩
    else if options.h ≠ 0 then
      ⟨round ((options.h : ℚ) * aspect), options.h⟩
    else
      ⟨sourceWidth, sourceHeight⟩

/-- `computeDrawRects` from `src/app/conversion.ts`. -/
def computeDrawRects (sourceWidth sourceHeight destWidth destHeight : ℤ)
    (mode : FitMode) : DrawRect :=
  if destWidth = 0 ∨ destHeight = 0 then
    ⟨0, 0, sourceWidth, sourceHeight, 0, 0, sourceWidth, sourceHeight⟩
  else
    let fitMode :=
      if mode = .keep ∧ (destWidth ≠ sourceWidth ∨ destHeight ≠ sourceHeight)
      then FitMode.stretch else mode
    match fitMode with
    | .keep =>
      ⟨0, 0, sourceWidth, sourceHeight, 0, 0, sourceWidth, sourceHeight⟩
    | .stretch =>
      ⟨0, 0, sourceWidth, sourceHeight, 0, 0, destWidth, destHeight⟩
    | .contain =>
      let sourceAspect : ℚ := (sourceWidth : ℚ) / (sourceHeight : ℚ)
      let destAspect : ℚ := (destWidth : ℚ) / (destHeight : ℚ)
      let dw : ℤ := if sourceAspect > destAspect then destWidth
        else round ((destHeight : ℚ) * sourceAspect)
      let dh : ℤ := if sourceAspect > destAspect
        then round ((destWidth : ℚ) / sourceAspect)
        else destHeight
      let dx : ℤ := ⌊((destWidth - dw : ℤ) : ℚ) / 2⌋
      let dy : ℤ := ⌊((destHeight - dh : ℤ) : ℚ) / 2⌋
      ⟨0, 0, sourceWidth, sourceHeight, dx, dy, dw, dh⟩
    | .cover =>
      let sourceAspect : ℚ := (sourceWidth : ℚ) / (sourceHeight : ℚ)
      let destAspect : ℚ := (destWidth : ℚ) / (destHeight : ℚ)
      let sw : ℤ := if sourceAspect > destAspect
        then round ((sourceHeight : ℚ) * destAspect)
        else sourceWidth
      let sh : ℤ := if sourceAspect > destAspect then sourceHeight
        else round ((sourceWidth : ℚ) / destAspect)
      let sx : ℤ := ⌊((sourceWidth - sw : ℤ) : ℚ) / 2⌋
      let sy : ℤ := ⌊((sourceHeight - sh : ℤ) : ℚ) / 2⌋
      ⟨sx, sy, sw, sh, 0, 0, destWidth, destHeight⟩

/-! ## Conversion pipeline (conversion.ts) -/

/-- Item status: `'ready' | 'converting' | 'done' | 'error'`. -/
inductive Status where
  | ready
  | converting
  | done
  | error
deriving DecidableEq, Repr

/-- An encoded byte payload as observed by the pipeline: its reported MIME
type and byte size (the bytes themselves are opaque). -/
structure Blob where
  type : String
  size : ℕ
deriving DecidableEq, Repr

/-- `Item['output']` from `src/app/types.ts`. -/
structure OutputArtifact where
  blob : Blob
  type : String
  name : String
  size : ℕ
  width : ℤ
  height : ℤ
deriving DecidableEq, Repr

/-- `Item` from `src/app/types.ts` (the `file` handle and preview URL are
opaque to the pipeline and omitted; decoding outcomes live in `Env`). -/
structure Item where
  id : String
  name : String
  type : String
  size : ℕ
  width : Option ℤ
  height : Option ℤ
  status : Status
  error : Option String
  output : Option OutputArtifact
deriving DecidableEq, Repr

/-- A JavaScript value thrown by a collaborator or by the pipeline:
either an `Error` instance, carrying its `message`, or any other value,
carrying its string coercion `String(v)` (for a thrown bare string that
coercion is the string itself). -/
inductive JSValue where
  | errObj (message : String)
  | nonError (stringRep : String)
deriving DecidableEq, Repr

/-- `error instanceof Error ? error.message : String(error)` from the
`catch` block of `convertImage`. -/
def JSValue.toText : JSValue → String
  | .errObj message => message
  | .nonError stringRep => stringRep

/-- Which variant of `DecodedImage` the decode produced. -/
inductive DecodeKind where
  | bitmap
  | img
deriving DecidableEq, Repr

/-- Outcome of a successful `decodeImage`: variant and authoritative
pixel dimensions. -/
structure DecodeRes where
  kind : DecodeKind
  width : ℤ
  height : ℤ
deriving DecidableEq, Repr

/-- Outcomes of the external collaborators for one `convertImage` run:
decode result, 2D-context availability, `supports.createImageBitmap`,
the result of a `createImageBitmap` resize if one is attempted, the
result of `ctx.drawImage`, and the result of `canvasToBlob`. -/
structure Env where
  decodeResult : Except JSValue DecodeRes
  ctxAvailable : Bool
  supportsCreateImageBitmap : Bool
  resizeResult : Except JSValue Unit
  drawResult : Except JSValue Unit
  encodeResult : Except JSValue Blob
deriving Repr

/-- Observable effects of a pipeline run.  Bitmap identities: the decoded
fast-path bitmap is `0`, a resized replacement is `1`. -/
inductive Effect where
  | decodeStarted
  | resizeStarted
  | drawPerformed (rect : DrawRect)
  | close (bmpId : ℕ)
  | encodeStarted
deriving DecidableEq, Repr

/-- Result of `maybeResizeBitmap`: the bitmap now held (identity and
dimensions) and whether it replaced the original (`resized !== bmp`). -/
structure ResizeOutcome where
  bmpId : ℕ
  width : ℤ
  height : ℤ
  replaced : Bool
deriving DecidableEq, Repr

/-- `maybeResizeBitmap` from `src/app/conversion.ts`.  Returns the thrown
value or the outcome, together with the effects of the call; on the
resample path the original bitmap is closed after `createImageBitmap`
succeeds (`bmp.close()` is not reached when it throws). -/
def maybeResizeBitmap (env : Env) (options : ConversionOptions) (bmpId : ℕ)
    (sourceWidth sourceHeight destWidth destHeight : ℤ) :
    Except JSValue ResizeOutcome × List Effect :=
  if ¬ env.supportsCreateImageBitmap then
    (.ok ⟨bmpId, sourceWidth, sourceHeight, false⟩, [])
  else if options.bmpResizeQuality = .off then
    (.ok ⟨bmpId, sourceWidth, sourceHeight, false⟩, [])
  else if options.fit = .cover ∨ options.fit = .contain then
    (.ok ⟨bmpId, sourceWidth, sourceHeight, false⟩, [])
  else if destWidth = sourceWidth ∧ destHeight = sourceHeight then
    (.ok ⟨bmpId, sourceWidth, sourceHeight, false⟩, [])
  else
    match env.resizeResult with
    | .error v => (.error v, [.resizeStarted])
    | .ok _ =>
      (.ok ⟨bmpId + 1, destWidth, destHeight, true⟩,
       [.resizeStarted, .close bmpId])

/-- The `try` block of `convertImage` (`src/app/conversion.ts`), run on
the item after the initial `status = 'converting'; error = undefined`
mutation: it either completes, yielding the `OutputArtifact` the last
lines of the block store, or throws a `JSValue`.  Either way it reports
the effects that were reached.  Background fill / clear and smoothing
configuration only mutate the fresh canvas context and have no failure
mode, so they leave no tracked effect. -/
def convertBody (item : Item) (options : ConversionOptions) (env : Env) :
    Except JSValue OutputArtifact × List Effect :=
  match env.decodeResult with
  | .error v => (.error v, [.decodeStarted])
  | .ok dec =>
    let dims := computeOutputSize dec.width dec.height options
    if ¬ env.ctxAvailable then
      (.error (.errObj "2D canvas context not available."), [.decodeStarted])
    else
      let afterResize :=
        match dec.kind with
        | .img => (Except.ok (ResizeOutcome.mk 0 dec.width dec.height false), ([] : List Effect))
        | .bitmap =>
          maybeResizeBitmap env options 0 dec.width dec.height dims.width dims.height
      match afterResize with
      | (.error v, effs) => (.error v, .decodeStarted :: effs)
      | (.ok r, effs) =>
        let rect := computeDrawRects r.width r.height dims.width dims.height options.fit
        match env.drawResult with
        | .error v => (.error v, .decodeStarted :: (effs ++ [.drawPerformed rect]))
        | .ok _ =>
          let closeEffs : List Effect :=
            match dec.kind with
            | .bitmap => [.close r.bmpId]
            | .img => []
          match env.encodeResult with
          | .error v =>
            (.error v,
             .decodeStarted :: (effs ++ [.drawPerformed rect] ++ closeEffs ++ [.encodeStarted]))
          | .ok blob =>
            let base := safeFilename (stripExt item.name)
            let outputName := base ++ "." ++ extFromMime options.type
            (.ok ⟨blob, blob.type, outputName, blob.size, dims.width, dims.height⟩,
             .decodeStarted :: (effs ++ [.drawPerformed rect] ++ closeEffs ++ [.encodeStarted]))

/-- Result of one `convertImage` call: the item as left by the call and
the effects of the run. -/
structure RunResult where
  item : Item
  effects : List Effect
deriving DecidableEq, Repr

/-- `convertImage` from `src/app/conversion.ts`: set
`status = 'converting'`, clear the error, run the `try` block; on
success store the artifact and `status = 'done'`, on any thrown value
set `status = 'error'` and the coerced message.  The returned promise
always resolves; totality of this function models that. -/
def convertImage (item : Item) (options : ConversionOptions) (env : Env) :
    RunResult :=
  let current : Item := { item with status := .converting, error := none }
  match convertBody current options env with
  | (.ok artifact, effs) =>
    ⟨{ current with status := .done, output := some artifact }, effs⟩
  | (.error v, effs) =>
    ⟨{ current with status := .error, error := some v.toText }, effs⟩

/-- `convertOne` from the main module: bail out if the item is already
`'converting'`, otherwise mark it converting and run `convertImage`.
(The `!item` guard for an unknown id is outside this model; `render()`
only repaints.) -/
def convertOne (item : Item) (options : ConversionOptions) (env : Env) :
    RunResult :=
  if item.status = .converting then ⟨item, []⟩
  else convertImage { item with status := .converting, error := none } options env

/-- The concurrency level of `convertAll` in the main module:
`clamp((navigator.hardwareConcurrency || 4) - 1, 1, 6)`, with `hint = 0`
standing for a falsy `hardwareConcurrency`. -/
def concurrencyLevel (hint : ℕ) : ℚ :=
  clamp ((if hint = 0 then 4 else (hint : ℚ)) - 1) 1 6

/-! ## Sample inputs used by witnesses and counterexamples -/

/-- A freshly ingested item. -/
def sampleItem : Item :=
  ⟨"1", "test.png", "image/png", 1000, none, none, .ready, none, none⟩

/-- Default options: keep dimensions, export PNG. -/
def sampleOptions : ConversionOptions :=
  ⟨"image/png", 9/10, .none, 0, 0, 100, .keep, "#FFFFFF", true, .high, .off⟩

/-- Collaborators all succeed: fast-path bitmap decode of a 100×100
image, context available, encode yields a 4-byte PNG blob. -/
def okEnv : Env :=
  ⟨.ok ⟨.bitmap, 100, 100⟩, true, true, .ok (), .ok (), .ok ⟨"image/png", 4⟩⟩

/-- Decode rejects with `Error('Decode failed')`. -/
def decodeFailEnv : Env :=
  { okEnv with decodeResult := .error (.errObj "Decode failed") }

/-- Decode rejects with the bare string `'String error'`. -/
def decodeFailStrEnv : Env :=
  { okEnv with decodeResult := .error (.nonError "String error") }

/-- Decode succeeds with a fast-path bitmap but `getContext('2d')`
returns `null`. -/
def ctxFailEnv : Env :=
  { okEnv with ctxAvailable := false }

/-- Options that trigger the resample path: pixels mode to 50×50,
stretch fit, high-quality bitmap resize. -/
def resampleOptions : ConversionOptions :=
  { sampleOptions with
    sizeMode := .pixels,
    w := 50,
    h := 50,
    fit := .stretch,
    bmpResizeQuality := .high }

/-! ## Claim theorems -/

/-- **C4 (amended).** After any `convertImage` call resolves, `error` is
set iff the status is `'error'`, the status is terminal (`'done'` or
`'error'`), and `output` is set whenever the status is `'done'`; on
failure `output` is exactly what it was before the call — so an artifact
from an earlier successful conversion survives a later failed one, and
`output` being set does not imply status `'done'`. -/
theorem convertImage_status_field_invariant (item : Item)
    (options : ConversionOptions) (env : Env) :
    ((convertImage item options env).item.error.isSome
        ↔ (convertImage item options env).item.status = .error)
    ∧ ((convertImage item options env).item.status = .done
        ∨ (convertImage item options env).item.status = .error)
    ∧ ((convertImage item options env).item.status = .done
        → (convertImage item options env).item.output.isSome)
    ∧ ((convertImage item options env).item.status = .error
        → (convertImage item options env).item.output = item.output) := by
  rcases hb : convertBody { item with status := .converting, error := none } options env
    with ⟨res, effs⟩
  rcases res with v | artifact <;> simp [convertImage, hb]

/-- **C4 (amended, witness).** The implications instantiated: a fully
successful run ends with an artifact present, and a failing run leaves
the prior `output` (here `none`) untouched. -/
theorem convertImage_status_field_invariant_witness :
    (convertImage sampleItem sampleOptions okEnv).item.output.isSome
    ∧ (convertImage sampleItem sampleOptions decodeFailEnv).item.output
        = sampleItem.output :=
  ⟨(convertImage_status_field_invariant sampleItem sampleOptions okEnv).2.2.1 rfl,
   (convertImage_status_field_invariant sampleItem sampleOptions
      decodeFailEnv).2.2.2 rfl⟩

/-- **C4 (counterexample).** The claimed equivalence "`output` is set iff
status is `'done'`" fails: an item holding the artifact of an earlier
successful conversion, re-converted under an environment whose decode
fails, ends with status `'error'` and its `output` still set. -/
theorem convertImage_output_set_while_error :
    ((convertImage
        { sampleItem with
          status := .done,
          output := some ⟨⟨"image/png", 4⟩, "image/png", "test.png", 4, 100, 100⟩ }
        sampleOptions decodeFailEnv).item.status = .error)
    ∧ ((convertImage
        { sampleItem with
          status := .done,
          output := some ⟨⟨"image/png", 4⟩, "image/png", "test.png", 4, 100, 100⟩ }
        sampleOptions decodeFailEnv).item.output ≠ none) := by decide

/-- **C5.** Whenever the body of `convertImage` throws a value `v` at any
step from decode through encode, the call still resolves and leaves the
item with status `'error'`, error text `v.message` for an `Error` and
`String(v)` otherwise, and `output` exactly as before the call. -/
theorem convertImage_failure_isolation (item : Item)
    (options : ConversionOptions) (env : Env) (v : JSValue)
    (h : (convertBody { item with status := .converting, error := none }
            options env).1 = .error v) :
    (convertImage item options env).item.status = .error
    ∧ (convertImage item options env).item.error = some v.toText
    ∧ (convertImage item options env).item.output = item.output := by
  rcases hb : convertBody { item with status := .converting, error := none } options env
    with ⟨res, effs⟩
  rw [hb] at h
  simp only at h
  subst h
  simp [convertImage, hb]

/-- **C5 (witness).** Decode throwing `Error('Decode failed')` yields
error text exactly `"Decode failed"`; decode throwing the bare string
`'String error'` preserves it verbatim; output stays untouched. -/
theorem convertImage_failure_isolation_witness :
    ((convertImage sampleItem sampleOptions decodeFailEnv).item.error
        = some "Decode failed")
    ∧ ((convertImage sampleItem sampleOptions decodeFailEnv).item.output = none)
    ∧ ((convertImage sampleItem sampleOptions decodeFailStrEnv).item.error
        = some "String error") :=
  ⟨(convertImage_failure_isolation sampleItem sampleOptions decodeFailEnv
      (.errObj "Decode failed") rfl).2.1,
   (convertImage_failure_isolation sampleItem sampleOptions decodeFailEnv
      (.errObj "Decode failed") rfl).2.2,
   (convertImage_failure_isolation sampleItem sampleOptions decodeFailStrEnv
      (.nonError "String error") rfl).2.1⟩

/-- **C3 (code evaluated at the failing input).** Decode succeeds with a
fast-path bitmap, then `getContext('2d')` returns `null`: the run exits
through the failure path with the decoded bitmap never closed — the
`catch` block of `convertImage` performs no `close()`, so the
exactly-once release discipline is violated (a leak) on this exit
path. -/
theorem convertImage_bitmap_leak_on_ctx_failure :
    ctxFailEnv.decodeResult = .ok ⟨.bitmap, 100, 100⟩
    ∧ (convertImage sampleItem sampleOptions ctxFailEnv).item.status = .error
    ∧ (convertImage sampleItem sampleOptions ctxFailEnv).effects = [.decodeStarted]
    ∧ Effect.close 0 ∉ (convertImage sampleItem sampleOptions ctxFailEnv).effects
    ∧ (convertImage sampleItem sampleOptions okEnv).effects
        = [.decodeStarted, .drawPerformed ⟨0, 0, 100, 100, 0, 0, 100, 100⟩,
           .close 0, .encodeStarted]
    ∧ (convertImage sampleItem resampleOptions okEnv).effects
        = [.decodeStarted, .resizeStarted, .close 0,
           .drawPerformed ⟨0, 0, 50, 50, 0, 0, 50, 50⟩, .close 1, .encodeStarted] := by
  refine ⟨rfl, rfl, rfl, by decide, by decide, by decide⟩

/-- **C8.** Requesting a conversion of an item whose status is already
`'converting'` is a no-op: `convertOne` returns the item with every
field unchanged and performs no effect — no decode, draw, or encode is
started. -/
theorem convertOne_reentrant_noop (item : Item) (options : ConversionOptions)
    (env : Env) (h : item.status = .converting) :
    convertOne item options env = ⟨item, []⟩ := by
  simp [convertOne, h]

/-- **C8 (witness).** A concrete mid-flight item is untouched even under
an all-succeeding environment. -/
theorem convertOne_reentrant_noop_witness :
    convertOne { sampleItem with status := .converting } sampleOptions okEnv
      = ⟨{ sampleItem with status := .converting }, []⟩ :=
  convertOne_reentrant_noop _ _ _ rfl

/-- **C9.** For every positive hardware-concurrency hint `h`, the batch
scheduler's concurrency level is `clamp(h - 1, 1, 6)`, hence always at
least 1 and at most 6. -/
theorem convertAll_concurrency_clamp (hint : ℕ) (h : 0 < hint) :
    concurrencyLevel hint = clamp ((hint : ℚ) - 1) 1 6
    ∧ 1 ≤ concurrencyLevel hint
    ∧ concurrencyLevel hint ≤ 6 := by
  have hne : hint ≠ 0 := Nat.pos_iff_ne_zero.mp h
  unfold concurrencyLevel clamp
  rw [if_neg hne]
  exact ⟨rfl, le_min (by norm_num) (le_max_left _ _), min_le_left _ _⟩

/-- **C9 (witness).** A hint of 5 yields level `clamp(4, 1, 6) = 4`. -/
theorem convertAll_concurrency_clamp_witness :
    concurrencyLevel 5 = clamp ((5 : ℚ) - 1) 1 6 ∧ concurrencyLevel 5 = 4 :=
  ⟨(convertAll_concurrency_clamp 5 (by norm_num)).1,
   ((convertAll_concurrency_clamp 5 (by norm_num)).1).trans
     (by norm_num [clamp])⟩

/-- Scale mode with an over-limit percent (5000%). -/
def scaleBigOptions : ConversionOptions :=
  { sampleOptions with sizeMode := .scale, scalePct := 5000 }

/-- Scale mode with an under-limit percent (0.5%). -/
def scaleSmallOptions : ConversionOptions :=
  { sampleOptions with sizeMode := .scale, scalePct := 1/2 }

/-- Pixels mode requesting only a width of 1. -/
def onlyWidthOptions : ConversionOptions :=
  { sampleOptions with sizeMode := .pixels, w := 1, h := 0 }

/-- **C7.** In `sizeMode = 'scale'`, the target is
`max(1, round(source × clamp(scalePct, 1, 1000) / 100))` per axis. -/
theorem computeOutputSize_scale_mode (sourceWidth sourceHeight : ℤ)
    (options : ConversionOptions) (_hw : 0 < sourceWidth) (_hh : 0 < sourceHeight)
    (hm : options.sizeMode = .scale) :
    computeOutputSize sourceWidth sourceHeight options =
      ⟨max 1 (round ((sourceWidth : ℚ) * clamp options.scalePct 1 1000 / 100)),
       max 1 (round ((sourceHeight : ℚ) * clamp options.scalePct 1 1000 / 100))⟩ := by
  unfold computeOutputSize
  rw [hm, mul_div_assoc, mul_div_assoc]

/-- **C7 (witness).** Source 100×100 at 5000% clamps to 1000% and yields
1000×1000; at 0.5% it clamps to 1% and yields 1×1. -/
theorem computeOutputSize_scale_mode_witness :
    computeOutputSize 100 100 scaleBigOptions = ⟨1000, 1000⟩
    ∧ computeOutputSize 100 100 scaleSmallOptions = ⟨1, 1⟩ :=
  ⟨(computeOutputSize_scale_mode 100 100 scaleBigOptions (by norm_num)
      (by norm_num) rfl).trans
      (by norm_num [scaleBigOptions, sampleOptions, clamp, round_eq]),
   (computeOutputSize_scale_mode 100 100 scaleSmallOptions (by norm_num)
      (by norm_num) rfl).trans
      (by norm_num [scaleSmallOptions, sampleOptions, clamp, round_eq])⟩

/-- **C1 (counterexample).** The Dimension Resolver can produce a zero
dimension: a 1000×1 source in pixels mode with only `w = 1` requested
yields target height `round(1 / 1000) = 0`, refuting "each ≥ 1". -/
theorem computeOutputSize_zero_height :
    onlyWidthOptions.sizeMode = .pixels
    ∧ onlyWidthOptions.w = 1 ∧ onlyWidthOptions.h = 0
    ∧ (computeOutputSize 1000 1 onlyWidthOptions).height = 0 := by
  refine ⟨rfl, rfl, rfl, ?_⟩
  norm_num [computeOutputSize, onlyWidthOptions, sampleOptions, round_eq]

/-- **C1 (amended).** For positive sources, `computeOutputSize` returns
dimensions that are ≥ 1 in `sizeMode` `'none'` and `'scale'`, and in
pixels mode equals the requested pair when both axes are requested and
the source when neither is; but when exactly one axis is requested the
derived axis is a bare `round` of the aspect-ratio formula with no floor
at 1, so it can be 0 for extreme aspect ratios. -/
theorem computeOutputSize_dimension_bounds (sourceWidth sourceHeight : ℤ)
    (options : ConversionOptions) (hw : 0 < sourceWidth) (hh : 0 < sourceHeight) :
    (options.sizeMode = .none →
      computeOutputSize sourceWidth sourceHeight options = ⟨sourceWidth, sourceHeight⟩
      ∧ 1 ≤ (computeOutputSize sourceWidth sourceHeight options).width
      ∧ 1 ≤ (computeOutputSize sourceWidth sourceHeight options).height)
    ∧ (options.sizeMode = .scale →
      1 ≤ (computeOutputSize sourceWidth sourceHeight options).width
      ∧ 1 ≤ (computeOutputSize sourceWidth sourceHeight options).height)
    ∧ (options.sizeMode = .pixels → options.w ≠ 0 → options.h ≠ 0 →
      computeOutputSize sourceWidth sourceHeight options = ⟨options.w, options.h⟩)
    ∧ (options.sizeMode = .pixels → options.w = 0 → options.h = 0 →
      computeOutputSize sourceWidth sourceHeight options = ⟨sourceWidth, sourceHeight⟩
      ∧ 1 ≤ (computeOutputSize sourceWidth sourceHeight options).width
      ∧ 1 ≤ (computeOutputSize sourceWidth sourceHeight options).height)
    ∧ (options.sizeMode = .pixels → options.w ≠ 0 → options.h = 0 →
      (computeOutputSize sourceWidth sourceHeight options).width = options.w
      ∧ (computeOutputSize sourceWidth sourceHeight options).height
          = round ((options.w : ℚ) / ((sourceWidth : ℚ) / (sourceHeight : ℚ))))
    ∧ (options.sizeMode = .pixels → options.w = 0 → options.h ≠ 0 →
      (computeOutputSize sourceWidth sourceHeight options).height = options.h
      ∧ (computeOutputSize sourceWidth sourceHeight options).width
          = round ((options.h : ℚ) * ((sourceWidth : ℚ) / (sourceHeight : ℚ)))) := by
  refine ⟨fun hm => ?_, fun hm => ?_, fun hm h1 h2 => ?_, fun hm h1 h2 => ?_,
    fun hm h1 h2 => ?_, fun hm h1 h2 => ?_⟩
  · simp [computeOutputSize, hm]
    omega
  · simp only [computeOutputSize, hm]
    exact ⟨le_max_left _ _, le_max_left _ _⟩
  · simp [computeOutputSize, hm, h1, h2]
  · simp [computeOutputSize, hm, h1, h2]
    omega
  · simp [computeOutputSize, hm, h1, h2]
  · simp [computeOutputSize, hm, h1, h2]

/-- **C1 (amended, witness).** Instantiated at the 1000×1 source with
only `w = 1` requested: the width is the requested 1 and the height is
the bare rounded ratio. -/
theorem computeOutputSize_dimension_bounds_witness :
    (computeOutputSize 1000 1 onlyWidthOptions).width = 1
    ∧ (computeOutputSize 1000 1 onlyWidthOptions).height
        = round ((1 : ℚ) / ((1000 : ℚ) / (1 : ℚ))) :=
  (computeOutputSize_dimension_bounds 1000 1 onlyWidthOptions (by norm_num)
    (by norm_num)).2.2.2.2.1 rfl (by decide) rfl

/-! ## Filename derivation (C2, C10) -/

/-- The output filename built by `convertImage`:
`safeFilename(name.replace(/\.[^.]+$/, '')) + '.' + extFromMime(type)`. -/
def outputFilename (displayName targetType : String) : String :=
  safeFilename (stripExt displayName) ++ "." ++ extFromMime targetType

/-- The output filename as the claim words it: each single occurrence of
an invalid character replaced by one underscore (a per-character map,
not a per-run collapse). -/
def perCharFilename (displayName targetType : String) : String :=
  (⟨(stripExt displayName).data.map
      (fun c => if invalidChar c then '_' else c)⟩ : String)
    ++ "." ++ extFromMime targetType

/-- The amended reading of the sanitization rule: each maximal run of
one or more consecutive invalid characters becomes a single underscore.
Written by direct recursion on the run structure, independently of
`sanitizeAux`. -/
def collapseRuns (s : List Char) : List Char :=
  match s with
  | [] => []
  | c :: rest =>
    if invalidChar c then
      '_' :: collapseRuns (rest.dropWhile (fun x => invalidChar x))
    else
      c :: collapseRuns rest
termination_by s.length
decreasing_by
  · have := (List.dropWhile_sublist (l := rest) (fun x => invalidChar x)).length_le
    simp only [List.length_cons]
    omega
  · simp

lemma sanitizeAux_true_dropWhile (s : List Char) :
    sanitizeAux true s
      = sanitizeAux false (s.dropWhile (fun c => invalidChar c)) := by
  induction s with
  | nil => rfl
  | cons c rest ih =>
    by_cases hc : invalidChar c
    · simp [sanitizeAux, hc, List.dropWhile_cons, ih]
    · simp [sanitizeAux, hc, List.dropWhile_cons]

lemma sanitizeAux_false_eq_collapseRuns_aux :
    ∀ (n : ℕ) (s : List Char), s.length ≤ n →
      sanitizeAux false s = collapseRuns s := by
  intro n
  induction n with
  | zero =>
    intro s hs
    cases s with
    | nil =>
      rw [collapseRuns]
      rfl
    | cons c rest => simp at hs
  | succ m ih =>
    intro s hs
    cases s with
    | nil =>
      rw [collapseRuns]
      rfl
    | cons c rest =>
      by_cases hc : invalidChar c
      · rw [collapseRuns]
        have hlen : (rest.dropWhile (fun x => invalidChar x)).length ≤ m := by
          have := (List.dropWhile_sublist (l := rest) (fun x => invalidChar x)).length_le
          simp only [List.length_cons] at hs
          omega
        simp [sanitizeAux, hc, sanitizeAux_true_dropWhile, ih _ hlen]
      · rw [collapseRuns]
        have hlen : rest.length ≤ m := by
          simp only [List.length_cons] at hs
          omega
        simp [sanitizeAux, hc, ih rest hlen]

/-- `safeFilename` collapses every maximal run of invalid characters to
one underscore: it equals the independently-written run-collapsing
function. -/
lemma safeFilename_eq_collapseRuns (s : String) :
    safeFilename s = ⟨collapseRuns s.data⟩ :=
  congrArg String.mk
    (sanitizeAux_false_eq_collapseRuns_aux s.data.length s.data le_rfl)

/-- **C2 (counterexample).** The claimed per-character replacement fails
on a run: `'a::b.jpg'` converted to `image/png` is named `'a_b.png'` by
the code (the regex quantifier `+` collapses the run `::`), not the
`'a__b.png'` the per-occurrence reading predicts. -/
theorem outputFilename_run_counterexample :
    outputFilename "a::b.jpg" "image/png" = "a_b.png"
    ∧ perCharFilename "a::b.jpg" "image/png" = "a__b.png"
    ∧ outputFilename "a::b.jpg" "image/png"
        ≠ perCharFilename "a::b.jpg" "image/png" := by
  refine ⟨by decide, by decide, by decide⟩

/-- **C2 (amended).** The derived output filename is the display name
with its final dot-extension removed, each maximal run of one or more
consecutive characters from `\\ / : * ? " < > |` replaced by a single
underscore, followed by a dot and the canonical extension of the target
MIME type (`png`, `jpg`, `webp`, `avif`; anything else `img`); in
particular `'my:photo?.jpg'` to `image/png` gives `'my_photo_.png'` and
`'photo.jpg'` to `image/webp` gives `'photo.webp'`. -/
theorem outputFilename_spec :
    (∀ displayName targetType : String,
      outputFilename displayName targetType
        = (⟨collapseRuns (stripExt displayName).data⟩ : String)
            ++ "." ++ extFromMime targetType)
    ∧ outputFilename "my:photo?.jpg" "image/png" = "my_photo_.png"
    ∧ outputFilename "photo.jpg" "image/webp" = "photo.webp"
    ∧ extFromMime "image/png" = "png"
    ∧ extFromMime "image/jpeg" = "jpg"
    ∧ extFromMime "image/webp" = "webp"
    ∧ extFromMime "image/avif" = "avif"
    ∧ (∀ mime : String, mime ≠ "image/jpeg" → mime ≠ "image/png" →
        mime ≠ "image/webp" → mime ≠ "image/avif" → extFromMime mime = "img") := by
  refine ⟨?_, by decide, by decide, by decide, by decide, by decide, by decide, ?_⟩
  · intro displayName targetType
    unfold outputFilename
    rw [safeFilename_eq_collapseRuns]
  · intro mime h1 h2 h3 h4
    simp [extFromMime, h1, h2, h3, h4]

/-- **C2 (amended, witness).** The universally quantified parts applied
at concrete inputs: the run-collapse form at `'a::b.jpg'`, and the
fallback extension at the unknown type `text/plain`. -/
theorem outputFilename_spec_witness :
    outputFilename "a::b.jpg" "image/png"
      = (⟨collapseRuns (stripExt "a::b.jpg").data⟩ : String)
          ++ "." ++ extFromMime "image/png"
    ∧ extFromMime "text/plain" = "img" :=
  ⟨outputFilename_spec.1 "a::b.jpg" "image/png",
   outputFilename_spec.2.2.2.2.2.2.2 "text/plain" (by decide) (by decide)
     (by decide) (by decide)⟩

lemma sanitizeAux_true_replicate (c : Char) (hc : invalidChar c) :
    ∀ (n : ℕ) (s : List Char),
      sanitizeAux true (List.replicate n c ++ s) = sanitizeAux true s := by
  intro n
  induction n with
  | zero => intro s; rfl
  | succ m ih =>
    intro s
    rw [List.replicate_succ, List.cons_append]
    simp [sanitizeAux, hc, ih]

/-- **C10.** `safeFilename` maps each maximal run of one or more
consecutive invalid characters to a single underscore, so distinct names
collide after sanitization: every name `a:⋯:b` with `n ≥ 1` colons
sanitizes to `a_b`; in particular `'a::b'` and `'a:b'` are distinct names
with the same sanitization. -/
theorem safeFilename_collapses_runs :
    (∀ n : ℕ, 0 < n →
      safeFilename ⟨'a' :: (List.replicate n ':' ++ ['b'])⟩ = "a_b")
    ∧ safeFilename "a::b" = "a_b"
    ∧ safeFilename "a:b" = "a_b"
    ∧ "a::b" ≠ "a:b" := by
  refine ⟨?_, by decide, by decide, by decide⟩
  intro n hn
  obtain ⟨m, rfl⟩ : ∃ m, n = m + 1 := ⟨n - 1, by omega⟩
  have h1 := sanitizeAux_true_replicate ':' (by decide) m ['b']
  simp only [safeFilename, List.replicate_succ, List.cons_append]
  rw [show sanitizeAux false ('a' :: ':' :: (List.replicate m ':' ++ ['b']))
      = 'a' :: '_' :: sanitizeAux true (List.replicate m ':' ++ ['b']) from by
    simp [sanitizeAux, invalidChar]]
  rw [h1]
  decide

/-- **C10 (witness).** The run-collapse statement applied at `n = 2`,
i.e. at the name `'a::b'`. -/
theorem safeFilename_collapses_runs_witness :
    safeFilename ⟨'a' :: (List.replicate 2 ':' ++ ['b'])⟩ = "a_b" :=
  safeFilename_collapses_runs.1 2 (by norm_num)

/-! ## Contain-fit geometry (C6) -/

lemma computeDrawRects_contain_eq
    (sourceWidth sourceHeight destWidth destHeight : ℤ)
    (hdw : destWidth ≠ 0) (hdh : destHeight ≠ 0) :
    computeDrawRects sourceWidth sourceHeight destWidth destHeight .contain
      = ⟨0, 0, sourceWidth, sourceHeight,
         ⌊((destWidth -
            (if (sourceWidth : ℚ) / sourceHeight > (destWidth : ℚ) / destHeight
             then destWidth
             else round ((destHeight : ℚ) * ((sourceWidth : ℚ) / sourceHeight))) : ℤ) : ℚ) / 2⌋,
         ⌊((destHeight -
            (if (sourceWidth : ℚ) / sourceHeight > (destWidth : ℚ) / destHeight
             then round ((destWidth : ℚ) / ((sourceWidth : ℚ) / sourceHeight))
             else destHeight) : ℤ) : ℚ) / 2⌋,
         (if (sourceWidth : ℚ) / sourceHeight > (destWidth : ℚ) / destHeight
          then destWidth
          else round ((destHeight : ℚ) * ((sourceWidth : ℚ) / sourceHeight))),
         (if (sourceWidth : ℚ) / sourceHeight > (destWidth : ℚ) / destHeight
          then round ((destWidth : ℚ) / ((sourceWidth : ℚ) / sourceHeight))
          else destHeight)⟩ := by
  unfold computeDrawRects
  rw [if_neg (by tauto)]
  simp

/-- **C6.** With fit `'contain'` and positive source and target sizes,
the source rectangle is the full source (no cropping); the destination
box is `dw = targetW, dh = round(targetW / aspect)` when the source
aspect exceeds the target aspect and `dh = targetH,
dw = round(targetH × aspect)` otherwise; it is centered with
floor-halved offsets; and its area never exceeds the target canvas
area. -/
theorem computeDrawRects_contain_spec
    (sourceWidth sourceHeight destWidth destHeight : ℤ)
    (hsw : 0 < sourceWidth) (hsh : 0 < sourceHeight)
    (hdw : 0 < destWidth) (hdh : 0 < destHeight) :
    (computeDrawRects sourceWidth sourceHeight destWidth destHeight .contain).sx = 0
    ∧ (computeDrawRects sourceWidth sourceHeight destWidth destHeight .contain).sy = 0
    ∧ (computeDrawRects sourceWidth sourceHeight destWidth destHeight .contain).sw
        = sourceWidth
    ∧ (computeDrawRects sourceWidth sourceHeight destWidth destHeight .contain).sh
        = sourceHeight
    ∧ ((sourceWidth : ℚ) / sourceHeight > (destWidth : ℚ) / destHeight →
        (computeDrawRects sourceWidth sourceHeight destWidth destHeight .contain).dw
          = destWidth
        ∧ (computeDrawRects sourceWidth sourceHeight destWidth destHeight .contain).dh
          = round ((destWidth : ℚ) / ((sourceWidth : ℚ) / sourceHeight)))
    ∧ (¬ (sourceWidth : ℚ) / sourceHeight > (destWidth : ℚ) / destHeight →
        (computeDrawRects sourceWidth sourceHeight destWidth destHeight .contain).dh
          = destHeight
        ∧ (computeDrawRects sourceWidth sourceHeight destWidth destHeight .contain).dw
          = round ((destHeight : ℚ) * ((sourceWidth : ℚ) / sourceHeight)))
    ∧ (computeDrawRects sourceWidth sourceHeight destWidth destHeight .contain).dx
        = ⌊((destWidth -
            (computeDrawRects sourceWidth sourceHeight destWidth destHeight .contain).dw
              : ℤ) : ℚ) / 2⌋
    ∧ (computeDrawRects sourceWidth sourceHeight destWidth destHeight .contain).dy
        = ⌊((destHeight -
            (computeDrawRects sourceWidth sourceHeight destWidth destHeight .contain).dh
              : ℤ) : ℚ) / 2⌋
    ∧ (computeDrawRects sourceWidth sourceHeight destWidth destHeight .contain).dw
        * (computeDrawRects sourceWidth sourceHeight destWidth destHeight .contain).dh
        ≤ destWidth * destHeight := by
  rw [computeDrawRects_contain_eq sourceWidth sourceHeight destWidth destHeight
    (by omega) (by omega)]
  have hsA : (0 : ℚ) < (sourceWidth : ℚ) / sourceHeight :=
    div_pos (by exact_mod_cast hsw) (by exact_mod_cast hsh)
  have hdQ : (0 : ℚ) < (destWidth : ℚ) := by exact_mod_cast hdw
  have hhQ : (0 : ℚ) < (destHeight : ℚ) := by exact_mod_cast hdh
  have hdA : (0 : ℚ) < (destWidth : ℚ) / destHeight := div_pos hdQ hhQ
  refine ⟨rfl, rfl, rfl, rfl, fun h => by simp [if_pos h],
    fun h => by simp [if_neg h], rfl, rfl, ?_⟩
  by_cases hAD : (sourceWidth : ℚ) / sourceHeight > (destWidth : ℚ) / destHeight
  · simp only [if_pos hAD]
    have hlt : (destWidth : ℚ) / ((sourceWidth : ℚ) / sourceHeight)
        < (destWidth : ℚ) / ((destWidth : ℚ) / destHeight) :=
      div_lt_div_of_pos_left hdQ hdA hAD
    have heq : (destWidth : ℚ) / ((destWidth : ℚ) / destHeight) = (destHeight : ℚ) := by
      rw [div_div_eq_mul_div, mul_comm, mul_div_assoc,
        div_self (ne_of_gt hdQ), mul_one]
    rw [heq] at hlt
    have hub : round ((destWidth : ℚ) / ((sourceWidth : ℚ) / sourceHeight))
        ≤ destHeight := by
      rw [round_eq]
      refine Int.lt_add_one_iff.mp (Int.floor_lt.mpr ?_)
      push_cast
      linarith
    exact mul_le_mul_of_nonneg_left hub (le_of_lt hdw)
  · simp only [if_neg hAD]
    have hle : (sourceWidth : ℚ) / sourceHeight ≤ (destWidth : ℚ) / destHeight :=
      not_lt.mp hAD
    have hmul : (destHeight : ℚ) * ((sourceWidth : ℚ) / sourceHeight)
        ≤ (destHeight : ℚ) * ((destWidth : ℚ) / destHeight) :=
      mul_le_mul_of_nonneg_left hle (le_of_lt hhQ)
    have heq : (destHeight : ℚ) * ((destWidth : ℚ) / destHeight) = (destWidth : ℚ) := by
      rw [mul_comm]
      exact div_mul_cancel₀ _ (ne_of_gt hhQ)
    rw [heq] at hmul
    have hub : round ((destHeight : ℚ) * ((sourceWidth : ℚ) / sourceHeight))
        ≤ destWidth := by
      rw [round_eq]
      refine Int.lt_add_one_iff.mp (Int.floor_lt.mpr ?_)
      push_cast
      linarith
    exact mul_le_mul_of_nonneg_right hub (le_of_lt hdh)

/-- **C6 (witness).** Instantiated at a 200×100 source drawn onto a
100×100 canvas: the destination box area never exceeds the canvas, and
the box is 100×50 (`round(100 / 2)`), letterboxed at `dy = 25`. -/
theorem computeDrawRects_contain_spec_witness :
    (computeDrawRects 200 100 100 100 .contain).dw
        * (computeDrawRects 200 100 100 100 .contain).dh ≤ 100 * 100
    ∧ computeDrawRects 200 100 100 100 .contain
        = ⟨0, 0, 200, 100, 0, 25, 100, 50⟩ :=
  ⟨(computeDrawRects_contain_spec 200 100 100 100 (by norm_num) (by norm_num)
      (by norm_num) (by norm_num)).2.2.2.2.2.2.2.2,
   by norm_num [computeDrawRects, round_eq]; decide⟩

end WebImageConverter
